import Mathlib

/-!
Verification of the chat page `src/app/page.tsx`: the response normalizer
(`extractTextFromResponse`), the gateway client adapter (`callPuterChat`),
the mock responder (`getMockResponse`), the submission orchestrator
(`handleSubmit`) and the script-loading state machine (the `useEffect`
installing the Puter.js script tag).

JavaScript runtime values that can cross the gateway boundary are modelled
by the tagged union `JSVal` (string, integer number, boolean, null,
undefined, array, object).  Numbers are modelled by `Int`: JSON numerals
carrying a fraction or an exponent denote non-integer numbers and lie
outside the modelled fragment (the parser reports them as unparsed).
`JSON.parse` is modelled by the executable `parseJSON`, `JSON.stringify`
by `stringifyJSON`, and the implicit `String(...)` coercion performed by
`Array.prototype.join` by `jsToString`.
-/

set_option maxRecDepth 20000

/-- A JavaScript runtime value, as a tagged union. -/
inductive JSVal where
  | vstr (s : String)
  | vnum (n : Int)
  | vbool (b : Bool)
  | vnull
  | vundefined
  | varr (items : List JSVal)
  | vobj (fields : List (String × JSVal))
deriving Repr

/-- JavaScript truthiness: `""`, `0`, `false`, `null`, `undefined` are falsy;
every other value (including empty arrays and empty objects) is truthy. -/
def truthy : JSVal → Bool
  | .vstr s => s != ""
  | .vnum n => n != 0
  | .vbool b => b
  | .vnull => false
  | .vundefined => false
  | .varr _ => true
  | .vobj _ => true

/-- Whether a JS value is `null` or `undefined` (nullish, for `?.`). -/
def nullish : JSVal → Bool
  | .vnull => true
  | .vundefined => true
  | _ => false

/-- First binding of key `k` in an object's field list. -/
def getField (fields : List (String × JSVal)) (k : String) : Option JSVal :=
  (fields.find? (fun kv => kv.1 == k)).map (fun kv => kv.2)

/-- Property read `v.k`: a field of an object, `undefined` otherwise
(property reads on primitives and arrays used here all yield `undefined`). -/
def jsGet (v : JSVal) (k : String) : JSVal :=
  match v with
  | .vobj fields => (getField fields k).getD .vundefined
  | _ => .vundefined

/-- Optional chaining `v?.k`: `undefined` when `v` is nullish, else `v.k`. -/
def optGet (v : JSVal) (k : String) : JSVal :=
  if nullish v then .vundefined else jsGet v k

/-- The `in` operator on a parsed JSON object: own-property test. -/
def hasField (fields : List (String × JSVal)) (k : String) : Bool :=
  fields.any (fun kv => kv.1 == k)

mutual

/-- JavaScript `String(...)` coercion (as performed by `Array.prototype.join`
on each element): strings verbatim, numbers in decimal, `Array.prototype.toString`
for arrays, the generic `[object Object]` for plain objects. -/
def jsToString : JSVal → String
  | .vstr s => s
  | .vnum n => toString n
  | .vbool b => if b then "true" else "false"
  | .vnull => "null"
  | .vundefined => "undefined"
  | .varr items => String.intercalate "," (jsToStringItems items)
  | .vobj _ => "[object Object]"

/-- Element coercion used by `Array.prototype.toString`/`join`:
`null` and `undefined` become the empty string. -/
def jsToStringItems : List JSVal → List String
  | [] => []
  | v :: vs =>
    (match v with
      | JSVal.vnull => ""
      | JSVal.vundefined => ""
      | w => jsToString w) :: jsToStringItems vs

end

/-- Lower-case hexadecimal digit. -/
def hexDigitChar (n : Nat) : Char :=
  if n < 10 then Char.ofNat (48 + n) else Char.ofNat (87 + n)

/-- Four-digit hexadecimal rendering, for `\uXXXX` escapes. -/
def hex4 (n : Nat) : String :=
  String.mk [hexDigitChar (n / 4096 % 16), hexDigitChar (n / 256 % 16),
             hexDigitChar (n / 16 % 16), hexDigitChar (n % 16)]

/-- JSON escaping of a single character, as `JSON.stringify` does. -/
def escapeChar (c : Char) : String :=
  if c = '"' then "\\\""
  else if c = '\\' then "\\\\"
  else if c = '\n' then "\\n"
  else if c = '\t' then "\\t"
  else if c = '\r' then "\\r"
  else if c = '\x08' then "\\b"
  else if c = '\x0c' then "\\f"
  else if c.toNat < 32 then "\\u" ++ hex4 c.toNat
  else String.singleton c

/-- JSON string literal rendering (quotes plus escaped body). -/
def escapeString (s : String) : String :=
  "\"" ++ String.join (s.data.map escapeChar) ++ "\""

mutual

/-- Model of `JSON.stringify`.  At the call sites in the page the argument is never
`undefined` and never contains function values, so the partiality of the real
`JSON.stringify` (which yields no string on a top-level `undefined`) does not
arise; a top-level `undefined` is mapped to the array-context encoding. -/
def stringifyJSON : JSVal → String
  | .vstr s => escapeString s
  | .vnum n => toString n
  | .vbool b => if b then "true" else "false"
  | .vnull => "null"
  | .vundefined => "null"
  | .varr items => "[" ++ String.intercalate "," (stringifyArrItems items) ++ "]"
  | .vobj fields => "\x7b" ++ String.intercalate "," (stringifyObjFields fields) ++ "\x7d"

/-- Array elements under `JSON.stringify`: `undefined` becomes `null`. -/
def stringifyArrItems : List JSVal → List String
  | [] => []
  | v :: vs =>
    (match v with
      | JSVal.vundefined => "null"
      | w => stringifyJSON w) :: stringifyArrItems vs

/-- Object entries under `JSON.stringify`: entries whose value is
`undefined` are omitted. -/
def stringifyObjFields : List (String × JSVal) → List String
  | [] => []
  | (k, v) :: fs =>
    match v with
    | JSVal.vundefined => stringifyObjFields fs
    | w => (escapeString k ++ ":" ++ stringifyJSON w) :: stringifyObjFields fs

end

/-- JSON whitespace test. -/
def isWsChar (c : Char) : Bool :=
  c = ' ' || c = '\t' || c = '\n' || c = '\r'

/-- Drop leading JSON whitespace. -/
def skipWs : List Char → List Char
  | [] => []
  | c :: cs => if isWsChar c then skipWs cs else c :: cs

/-- Value of a hexadecimal digit, if any. -/
def hexVal (c : Char) : Option Nat :=
  if '0' ≤ c && c ≤ '9' then some (c.toNat - 48)
  else if 'a' ≤ c && c ≤ 'f' then some (c.toNat - 87)
  else if 'A' ≤ c && c ≤ 'F' then some (c.toNat - 55)
  else none

/-- Body of a JSON string literal (after the opening quote): consumes
characters up to the closing quote, handling the escape sequences of RFC 8259
and rejecting raw control characters, as `JSON.parse` does. -/
def parseStringBody : Nat → List Char → List Char → Option (String × List Char)
  | 0, _, _ => none
  | _ + 1, [], _ => none
  | fuel + 1, c :: cs, acc =>
    if c = '"' then some (String.mk acc.reverse, cs)
    else if c = '\\' then
      match cs with
      | [] => none
      | e :: cs2 =>
        if e = '"' then parseStringBody fuel cs2 ('"' :: acc)
        else if e = '\\' then parseStringBody fuel cs2 ('\\' :: acc)
        else if e = '/' then parseStringBody fuel cs2 ('/' :: acc)
        else if e = 'n' then parseStringBody fuel cs2 ('\n' :: acc)
        else if e = 't' then parseStringBody fuel cs2 ('\t' :: acc)
        else if e = 'r' then parseStringBody fuel cs2 ('\r' :: acc)
        else if e = 'b' then parseStringBody fuel cs2 ('\x08' :: acc)
        else if e = 'f' then parseStringBody fuel cs2 ('\x0c' :: acc)
        else if e = 'u' then
          match cs2 with
          | h1 :: h2 :: h3 :: h4 :: cs3 =>
            match hexVal h1, hexVal h2, hexVal h3, hexVal h4 with
            | some a, some b, some c3, some d =>
              parseStringBody fuel cs3
                (Char.ofNat (a * 4096 + b * 256 + c3 * 16 + d) :: acc)
            | _, _, _, _ => none
          | _ => none
        else none
    else if c.toNat < 32 then none
    else parseStringBody fuel cs (c :: acc)

/-- Decimal digits to a natural number. -/
def digitsToNat (ds : List Char) : Nat :=
  ds.foldl (fun a c => a * 10 + (c.toNat - 48)) 0

/-- A JSON integer numeral (optional sign, digits, no leading zero).
Numerals continuing with a fraction or exponent denote non-integer numbers,
outside the modelled fragment: reported as unparsed. -/
def parseNumber (cs : List Char) : Option (Int × List Char) :=
  let (neg, cs1) := match cs with
    | '-' :: r => (true, r)
    | _ => (false, cs)
  match cs1 with
  | [] => none
  | d :: _ =>
    if !d.isDigit then none
    else
      let ds := cs1.takeWhile (fun c => c.isDigit)
      let rest := cs1.dropWhile (fun c => c.isDigit)
      if 1 < ds.length && ds.head? = some '0' then none
      else
        match rest with
        | '.' :: _ => none
        | 'e' :: _ => none
        | 'E' :: _ => none
        | _ =>
          let n : Int := Int.ofNat (digitsToNat ds)
          some (if neg then -n else n, rest)

/-- Insert a key/value pair as `JSON.parse` does on duplicate keys:
the last value wins but the first position is kept. -/
def upsertField (fields : List (String × JSVal)) (k : String) (v : JSVal) :
    List (String × JSVal) :=
  if fields.any (fun kv => kv.1 == k) then
    fields.map (fun kv => if kv.1 == k then (k, v) else kv)
  else fields ++ [(k, v)]

mutual

/-- One JSON value at the head of the input (fuel-driven recursive descent). -/
def parseVal : Nat → List Char → Option (JSVal × List Char)
  | 0, _ => none
  | fuel + 1, cs =>
    match skipWs cs with
    | [] => none
    | c :: rest =>
      if c = '"' then
        (parseStringBody (fuel + 1) rest []).map (fun p => (JSVal.vstr p.1, p.2))
      else if c = '[' then
        match skipWs rest with
        | ']' :: r2 => some (JSVal.varr [], r2)
        | r2 => parseArrLoop fuel r2 []
      else if c = '\x7b' then
        match skipWs rest with
        | '\x7d' :: r2 => some (JSVal.vobj [], r2)
        | r2 => parseObjLoop fuel r2 []
      else
        match c, rest with
        | 't', 'r' :: 'u' :: 'e' :: r2 => some (JSVal.vbool true, r2)
        | 'f', 'a' :: 'l' :: 's' :: 'e' :: r2 => some (JSVal.vbool false, r2)
        | 'n', 'u' :: 'l' :: 'l' :: r2 => some (JSVal.vnull, r2)
        | _, _ =>
          if c = '-' || c.isDigit then
            (parseNumber (c :: rest)).map (fun p => (JSVal.vnum p.1, p.2))
          else none

/-- Comma-separated array elements, expecting a value next. -/
def parseArrLoop : Nat → List Char → List JSVal → Option (JSVal × List Char)
  | 0, _, _ => none
  | fuel + 1, cs, acc =>
    match parseVal fuel cs with
    | none => none
    | some (v, r) =>
      match skipWs r with
      | ',' :: r2 => parseArrLoop fuel r2 (acc ++ [v])
      | ']' :: r2 => some (JSVal.varr (acc ++ [v]), r2)
      | _ => none

/-- Comma-separated object members, expecting a `"key": value` pair next. -/
def parseObjLoop : Nat → List Char → List (String × JSVal) →
    Option (JSVal × List Char)
  | 0, _, _ => none
  | fuel + 1, cs, acc =>
    match skipWs cs with
    | '"' :: r =>
      match parseStringBody (fuel + 1) r [] with
      | none => none
      | some (k, r1) =>
        match skipWs r1 with
        | ':' :: r2 =>
          match parseVal fuel r2 with
          | none => none
          | some (v, r3) =>
            let acc2 := upsertField acc k v
            match skipWs r3 with
            | ',' :: r4 => parseObjLoop fuel r4 acc2
            | '\x7d' :: r4 => some (JSVal.vobj acc2, r4)
            | _ => none
        | _ => none
    | _ => none

end

/-- Model of `JSON.parse`, restricted to the modelled fragment (integer numerals):
`some v` models a successful parse of the whole input, `none` a thrown
`SyntaxError`. -/
def parseJSON (s : String) : Option JSVal :=
  match parseVal (s.length * 2 + 2) s.data with
  | some (v, rest) => if (skipWs rest).isEmpty then some v else none
  | none => none

/-- The per-item mapping of the array branches (page.tsx lines 109-114,
139-144, 170-175): an item that is a truthy object (`item && typeof item
=== "object"`) with a `"text"` own property yields `item.text`, anything
else yields `""`.  Arrays pass the `typeof` test but have no `"text"`
property, so only plain objects contribute. -/
def itemText (item : JSVal) : JSVal :=
  match item with
  | .vobj fields => if hasField fields "text" then jsGet item "text" else .vstr ""
  | _ => .vstr ""

/-- The `.map(...).filter(Boolean).join("\n")` pipeline applied to an array
of reply items (page.tsx lines 108-116 and duplicates). -/
def extractArrayText (items : List JSVal) : String :=
  String.intercalate "\n" (((items.map itemText).filter truthy).map jsToString)

/-- The normalizer `extractTextFromResponse` (page.tsx lines 96-197).  The `debugMode`
console logging is side-effect-free on the result and omitted.  The trailing
`catch` (line 193) returning `"Error processing response"` can only be
reached through a thrown exception; over the `JSVal` value space every
operation of the traversal is total, so no branch of this definition maps to
it.  Note that the branches returning `parsed.text`, `response.message.content.text`
and `response.text` return the field value itself, whatever its type. -/
def extractTextFromResponse (response : JSVal) : JSVal :=
  match response with
  | .vstr s =>
    -- lines 102-128: string replies go through JSON.parse
    match parseJSON s with
    | some parsed =>
      if truthy parsed then
        match parsed with
        | .varr items => .vstr (extractArrayText items)
        | .vobj fields =>
          -- `typeof parsed === "object"`, non-array
          if hasField fields "text" then jsGet parsed "text" else .vstr s
        | _ => .vstr s
      else .vstr s
    | none => .vstr s
  | _ =>
    -- line 131: `if (!response)`
    if truthy response = false then .vstr "No response received"
    else
      match response with
      | .varr items => .vstr (extractArrayText items)
      | _ =>
        let m := jsGet response "message"
        let mc := optGet m "content"
        let mct := optGet mc "text"
        -- line 150: `response.message?.content?.text`
        if truthy mct then mct
        else
          -- line 154: `response.text`
          let t := jsGet response "text"
          if truthy t then t
          else
            -- line 158: `response.content`
            let c := jsGet response "content"
            if truthy c then
              match c with
              | .vstr cs => .vstr cs
              | _ => .vstr (stringifyJSON c)
            else
              -- line 162: `response.message?.content`
              if truthy mc then
                match mc with
                | .vstr s2 => .vstr s2
                | .varr items => .vstr (extractArrayText items)
                | _ => .vstr (stringifyJSON mc)
              else
                -- lines 184-189: a `toString` different from
                -- `Object.prototype.toString` exists exactly for the
                -- primitive values still possible here (numbers and
                -- booleans, whose rendering is never `[object Object]`);
                -- a plain object carries the default `toString`, so it
                -- falls to the last resort of line 192.
                match response with
                | .vnum _ => .vstr (jsToString response)
                | .vbool _ => .vstr (jsToString response)
                | _ => .vstr (stringifyJSON response)

/-- Substring test (`String.prototype.includes`). -/
def strIncludes (s pat : String) : Bool :=
  s.data.tails.any (fun t => pat.data.isPrefixOf t)

/-- Model of `String.prototype.toLowerCase` (ASCII fragment). -/
def strToLower (s : String) : String :=
  String.mk (s.data.map Char.toLower)

/-- Model of `String.prototype.trim`: strip leading and trailing whitespace. -/
def jsTrim (s : String) : String :=
  String.mk (((s.data.dropWhile Char.isWhitespace).reverse.dropWhile
    Char.isWhitespace).reverse)

/-- The mock responder `getMockResponse` (page.tsx lines 239-249). -/
def getMockResponse (prompt : String) : String :=
  if strIncludes (strToLower prompt) "hello" || strIncludes (strToLower prompt) "hi" then
    "Hello! I'm a mock AI assistant. Puter.js isn't working correctly, but I can still chat with you in a limited way."
  else if strIncludes (strToLower prompt) "help" then
    "I'm currently running in mock mode because Puter.js isn't working correctly. Try checking the console for more information about the error."
  else
    "I'm a mock AI assistant. The Puter.js API seems to be unavailable or has changed. This is a fallback response."

/-- The `puter.ai` sub-capability: `chat` is `some f` when `typeof
puter.ai.chat === "function"`, where `f` maps the two call arguments
(prompt and options object) to the awaited outcome: `.ok` a raw reply,
`.error` a thrown value. -/
structure AICapability where
  chat : Option (String → JSVal → Except JSVal JSVal)

/-- The `window.puter` capability handle: `ai` is `some` when the truthy
`puter.ai` property is present. -/
structure Puter where
  ai : Option AICapability

/-- The advisory string returned when `puter.ai` is missing (line 214). -/
def aiMissingText : String :=
  "Sorry, the AI service is not available. This might be due to Puter.js API changes."

/-- The advisory string returned when `puter.ai.chat` is not a function
(line 220). -/
def chatMissingText : String :=
  "Sorry, the chat method is not available in this version of Puter.js."

/-- Outcome of one `callPuterChat` invocation, keeping the deciding branch
visible: `notLoadedErr` and `rethrown` are promise rejections (exceptions
reaching the caller), the other three are resolutions. -/
inductive AdapterResult where
  | notLoadedErr
  | aiMissingAdvisory
  | chatMissingAdvisory
  | success (text : JSVal)
  | rethrown (e : JSVal)

/-- The adapter `callPuterChat` (page.tsx lines 200-236).  The `catch` of line 232 only
logs and rethrows, so a throw from the `!puterRef.current` check or from the
awaited chat call reaches the caller unchanged. -/
def callPuterChat (puterRef : Option Puter) (promptText : String)
    (model : String) : AdapterResult :=
  match puterRef with
  | none => .notLoadedErr
  | some p =>
    match p.ai with
    | none => .aiMissingAdvisory
    | some a =>
      match a.chat with
      | none => .chatMissingAdvisory
      | some f =>
        match f promptText (JSVal.vobj [("model", JSVal.vstr model)]) with
        | .ok response => .success (extractTextFromResponse response)
        | .error e => .rethrown e

/-- A message role (page.tsx lines 22-25). -/
inductive Role where
  | user
  | assistant
  | system
deriving DecidableEq, Repr

/-- One conversation turn.  `content` is declared `string` in the source;
it is modelled as a `JSVal` because the normalizer can hand back non-string
field values (see the C1 analysis below). -/
structure Message where
  role : Role
  content : JSVal

/-- The `scriptStatus` state (page.tsx line 32). -/
inductive ScriptStatus where
  | loading
  | loaded
  | error
deriving DecidableEq, Repr

/-- The component state relevant to the claims: the `useState`/`useRef`
cells of page.tsx lines 28-36 plus the pending-timeout flag of the script
loading effect (lines 45-50). -/
structure AppState where
  selectedModel : String
  prompt : String
  messages : List Message
  isLoading : Bool
  scriptStatus : ScriptStatus
  errorMessage : Option String
  puterRef : Option Puter
  timeoutActive : Bool

/-- Result of one `handleSubmit` run: the new state, plus whether the
gateway path (`callPuterChat`) was entered. -/
structure SubmitResult where
  state : AppState
  invoked : Bool

/-- The guard of page.tsx line 267: `scriptStatus === "loaded" &&
puterRef.current?.ai`. -/
def gatewayGuard (s : AppState) : Bool :=
  s.scriptStatus == ScriptStatus.loaded &&
    (match s.puterRef with
     | some p => p.ai.isSome
     | none => false)

/-- The orchestrator `handleSubmit` (page.tsx lines 251-300), as one atomic
step from the user-message append to the assistant-message append.  The
body suspends only at the awaited chat call, and once the gateway path is
reachable (`scriptStatus` loaded) no other handler can mutate the message
list (the script fires `onload` at most once, `onerror` not after it, the
timeout is cleared, and re-entrant submits are rejected by `isLoading`),
so running it as one step is faithful.  The outer `catch`
(line 286) is unreachable over the model (no statement of the body throws
once `callPuterChat` rejections are handled by the inner `catch` of line
270), and the `finally` resets `isLoading`. -/
def handleSubmit (s : AppState) : SubmitResult :=
  if jsTrim s.prompt == "" || s.isLoading then ⟨s, false⟩
  else
    let currentPrompt := s.prompt
    let userMessage : Message := ⟨Role.user, JSVal.vstr currentPrompt⟩
    let responseText : JSVal :=
      if gatewayGuard s then
        match callPuterChat s.puterRef currentPrompt s.selectedModel with
        | .success v => v
        | .aiMissingAdvisory => JSVal.vstr aiMissingText
        | .chatMissingAdvisory => JSVal.vstr chatMissingText
        | .notLoadedErr => JSVal.vstr (getMockResponse currentPrompt)
        | .rethrown _ => JSVal.vstr (getMockResponse currentPrompt)
      else JSVal.vstr (getMockResponse currentPrompt)
    let assistantMessage : Message := ⟨Role.assistant, responseText⟩
    ⟨{ s with
        prompt := "",
        isLoading := false,
        errorMessage := none,
        messages := s.messages ++ [userMessage, assistantMessage] },
      gatewayGuard s⟩

/-- The system welcome message text (page.tsx line 65). -/
def welcomeText : String :=
  "Welcome! Select an AI model and start chatting. The models are powered by Puter.js."

/-- External events driving the component: the script-loading callbacks of
the effect (lines 45-78: the 10-second timeout, `script.onload` carrying
the value of `window.puter`, `script.onerror`) and the user interactions
(typing into the textarea, picking a model, submitting). -/
inductive Event where
  | timeout
  | scriptLoad (w : Option Puter)
  | scriptError
  | setPrompt (s : String)
  | setModel (m : String)
  | submit

/-- One event-handler execution (each handler runs to completion on the
single JS thread).  The timeout handler (lines 45-50) compares the
`scriptStatus` captured when the effect ran — always `"loading"` — so its
guard never blocks it; it can only be neutralised by the `clearTimeout`
of `onload`/`onerror`.  `onload` with `window.puter` present REPLACES the
message list with the single welcome message (line 62). -/
def step (s : AppState) (e : Event) : AppState :=
  match e with
  | .timeout =>
    if s.timeoutActive then
      { s with
          timeoutActive := false,
          scriptStatus := ScriptStatus.error,
          errorMessage := some "Puter.js script loading timed out. Please check your connection and try again." }
    else s
  | .scriptLoad w =>
    let s1 := { s with timeoutActive := false, scriptStatus := ScriptStatus.loaded }
    match w with
    | some p =>
      { s1 with
          puterRef := some p,
          messages := [⟨Role.system, JSVal.vstr welcomeText⟩] }
    | none =>
      { s1 with
          scriptStatus := ScriptStatus.error,
          errorMessage := some "Puter.js loaded but the puter object is not available." }
  | .scriptError =>
    { s with
        timeoutActive := false,
        scriptStatus := ScriptStatus.error,
        errorMessage := some "Failed to load Puter.js script. Please check your connection and try again." }
  | .setPrompt str => { s with prompt := str }
  | .setModel m => { s with selectedModel := m }
  | .submit => (handleSubmit s).state

/-- The initial component state (page.tsx lines 28-36), with the loading
timeout armed by the mount effect. -/
def initState : AppState :=
  { selectedModel := "gpt-4o",
    prompt := "",
    messages := [],
    isLoading := false,
    scriptStatus := ScriptStatus.loading,
    errorMessage := none,
    puterRef := none,
    timeoutActive := true }

/-- The state reached from mount after a sequence of events. -/
def runApp (es : List Event) : AppState :=
  es.foldl step initState

/-- Number of script-termination events (`load`/`error`) in a sequence; a
script element fires at most one of these, so event sequences the browser
can produce have at most one. -/
def loadEvCount (es : List Event) : Nat :=
  es.countP (fun e =>
    match e with
    | .scriptLoad _ => true
    | .scriptError => true
    | _ => false)

/-! ### Helper lemmas -/

theorem hasField_eq_isSome (fields : List (String × JSVal)) (k : String) :
    hasField fields k = (getField fields k).isSome := by
  induction fields with
  | nil => rfl
  | cons kv rest ih =>
    simp only [hasField, getField, List.any_cons, List.find?]
    cases h : kv.1 == k
    · simpa [h, hasField, getField] using ih
    · simp [h]

/-- The spec's phrasing of the array rule: collect the `text` field of each
object that has one, in order, drop the falsy values, join with newlines. -/
def textFieldOf (item : JSVal) : Option JSVal :=
  match item with
  | .vobj fields => getField fields "text"
  | _ => none

/-- The array rule as the spec words it (collect, then filter, then join),
to be compared against the code's map-to-empty-then-filter pipeline. -/
def specArrayText (items : List JSVal) : String :=
  String.intercalate "\n" (((items.filterMap textFieldOf).filter truthy).map jsToString)

theorem itemText_filter_eq (items : List JSVal) :
    (items.map itemText).filter truthy = (items.filterMap textFieldOf).filter truthy := by
  induction items with
  | nil => rfl
  | cons item rest ih =>
    simp only [List.map_cons, List.filterMap_cons]
    cases item with
    | vobj fields =>
      simp only [itemText, textFieldOf]
      cases hg : getField fields "text" with
      | none =>
        rw [hasField_eq_isSome, hg]
        simpa [truthy] using ih
      | some v =>
        rw [hasField_eq_isSome, hg]
        have hj : jsGet (JSVal.vobj fields) "text" = v := by
          simp [jsGet, hg]
        simp only [Option.isSome_some, if_true, hj, List.filter_cons]
        cases htv : truthy v <;> simp [htv, ih]
    | vstr s => simpa [itemText, textFieldOf, truthy] using ih
    | vnum n => simpa [itemText, textFieldOf, truthy] using ih
    | vbool b => simpa [itemText, textFieldOf, truthy] using ih
    | vnull => simpa [itemText, textFieldOf, truthy] using ih
    | vundefined => simpa [itemText, textFieldOf, truthy] using ih
    | varr its => simpa [itemText, textFieldOf, truthy] using ih

/-! ### Claim theorems -/

/-- Claim C1 (code bug): the normalizer does NOT always return a string.
On the object `\x7btext: 5\x7d` (and on the JSON-encoded string form of the
same shape) the code executes `return response.text` / `return parsed.text`
and hands the number `5` itself back to its caller, contradicting the
declared return type `string` of `extractTextFromResponse` and the claimed
contract.  The exception-catching part of the claim is vacuously honoured by
the model (no operation of the traversal can fail over `JSVal`), but the
claimed string-valued totality fails at this input. -/
theorem c1_normalizer_can_return_nonstring :
    extractTextFromResponse (JSVal.vobj [("text", JSVal.vnum 5)]) = JSVal.vnum 5 ∧
    extractTextFromResponse (JSVal.vstr "\x7b\"text\":5\x7d") = JSVal.vnum 5 ∧
    (JSVal.vnum 5 matches JSVal.vstr _) = false :=
  ⟨rfl, rfl, rfl⟩

/-- Claim C5: a string reply that parses as a JSON array is normalized by
the per-item `text` collection (in sequence order, objects with a `text`
field only, falsy values dropped) joined with newlines; the code's
map-to-empty-then-filter pipeline (`extractArrayText`) agrees with the
spec's collect-then-filter phrasing (`specArrayText`); on the JSON encoding
of `[\x7btext: "a"\x7d, \x7btext: "b"\x7d]` the result is `"a\nb"`, and on
the empty array it is the empty string. -/
theorem c5_array_string_normalization :
    (∀ s items, parseJSON s = some (JSVal.varr items) →
       extractTextFromResponse (JSVal.vstr s) = JSVal.vstr (extractArrayText items)) ∧
    (∀ items, extractArrayText items = specArrayText items) ∧
    extractTextFromResponse
        (JSVal.vstr "[\x7b\"text\":\"a\"\x7d,\x7b\"text\":\"b\"\x7d]") =
      JSVal.vstr "a\nb" ∧
    extractTextFromResponse (JSVal.vstr "[]") = JSVal.vstr "" := by
  refine ⟨?_, ?_, rfl, rfl⟩
  · intro s items h
    simp [extractTextFromResponse, h, truthy]
  · intro items
    simp [extractArrayText, specArrayText, itemText_filter_eq]

/-- Witness for C5: the universally quantified array rule applied to the
concrete input `"[]"`. -/
theorem c5_array_string_normalization_witness :
    extractTextFromResponse (JSVal.vstr "[]") = JSVal.vstr (extractArrayText []) :=
  c5_array_string_normalization.1 "[]" [] rfl

theorem truthy_vobj (fields : List (String × JSVal)) :
    truthy (JSVal.vobj fields) = true := rfl

theorem truthy_vundefined : truthy JSVal.vundefined = false := rfl

theorem optGet_vstr (s k : String) : optGet (JSVal.vstr s) k = JSVal.vundefined := rfl

theorem optGet_varr (l : List JSVal) (k : String) :
    optGet (JSVal.varr l) k = JSVal.vundefined := rfl

theorem truthy_varr (items : List JSVal) :
    truthy (JSVal.varr items) = true := rfl

/-- Claim C6: on a (non-string, non-null, non-array) object reply the shape
recognizers are tried in exactly the source order — nested
`message.content.text`, top-level `text`, top-level `content` (strings
verbatim, anything else JSON-serialized), `message.content` (strings
verbatim, arrays through the per-item pipeline, anything else
JSON-serialized), then (for a plain object, whose `toString` is the generic
default and is therefore skipped) the JSON serialization of the whole
value — and the first truthy match wins; in particular
`normalize(\x7bmessage:\x7bcontent:\x7btext:"hi"\x7d\x7d\x7d) = "hi"` and
`normalize(\x7bcontent:\x7ba:1\x7d\x7d)` is the JSON serialization of
`\x7ba:1\x7d`. -/
theorem c6_object_cascade (fields : List (String × JSVal)) :
    (truthy (optGet (optGet (jsGet (JSVal.vobj fields) "message") "content") "text") = true →
       extractTextFromResponse (JSVal.vobj fields) =
         optGet (optGet (jsGet (JSVal.vobj fields) "message") "content") "text") ∧
    (truthy (optGet (optGet (jsGet (JSVal.vobj fields) "message") "content") "text") = false →
     truthy (jsGet (JSVal.vobj fields) "text") = true →
       extractTextFromResponse (JSVal.vobj fields) = jsGet (JSVal.vobj fields) "text") ∧
    (truthy (optGet (optGet (jsGet (JSVal.vobj fields) "message") "content") "text") = false →
     truthy (jsGet (JSVal.vobj fields) "text") = false →
     truthy (jsGet (JSVal.vobj fields) "content") = true →
       ((∀ cs, jsGet (JSVal.vobj fields) "content" = JSVal.vstr cs →
           extractTextFromResponse (JSVal.vobj fields) = JSVal.vstr cs) ∧
        ((∀ cs, jsGet (JSVal.vobj fields) "content" ≠ JSVal.vstr cs) →
           extractTextFromResponse (JSVal.vobj fields) =
             JSVal.vstr (stringifyJSON (jsGet (JSVal.vobj fields) "content"))))) ∧
    (truthy (optGet (optGet (jsGet (JSVal.vobj fields) "message") "content") "text") = false →
     truthy (jsGet (JSVal.vobj fields) "text") = false →
     truthy (jsGet (JSVal.vobj fields) "content") = false →
     truthy (optGet (jsGet (JSVal.vobj fields) "message") "content") = true →
       ((∀ s2, optGet (jsGet (JSVal.vobj fields) "message") "content" = JSVal.vstr s2 →
           extractTextFromResponse (JSVal.vobj fields) = JSVal.vstr s2) ∧
        (∀ items, optGet (jsGet (JSVal.vobj fields) "message") "content" = JSVal.varr items →
           extractTextFromResponse (JSVal.vobj fields) = JSVal.vstr (extractArrayText items)) ∧
        ((∀ s2, optGet (jsGet (JSVal.vobj fields) "message") "content" ≠ JSVal.vstr s2) →
         (∀ items, optGet (jsGet (JSVal.vobj fields) "message") "content" ≠ JSVal.varr items) →
           extractTextFromResponse (JSVal.vobj fields) =
             JSVal.vstr (stringifyJSON (optGet (jsGet (JSVal.vobj fields) "message") "content"))))) ∧
    (truthy (optGet (optGet (jsGet (JSVal.vobj fields) "message") "content") "text") = false →
     truthy (jsGet (JSVal.vobj fields) "text") = false →
     truthy (jsGet (JSVal.vobj fields) "content") = false →
     truthy (optGet (jsGet (JSVal.vobj fields) "message") "content") = false →
       extractTextFromResponse (JSVal.vobj fields) =
         JSVal.vstr (stringifyJSON (JSVal.vobj fields))) ∧
    extractTextFromResponse
        (JSVal.vobj [("message",
          JSVal.vobj [("content", JSVal.vobj [("text", JSVal.vstr "hi")])])]) =
      JSVal.vstr "hi" ∧
    extractTextFromResponse (JSVal.vobj [("content", JSVal.vobj [("a", JSVal.vnum 1)])]) =
      JSVal.vstr (stringifyJSON (JSVal.vobj [("a", JSVal.vnum 1)])) := by
  refine ⟨?_, ?_, ?_, ?_, ?_, rfl, rfl⟩
  · intro h1
    simp [extractTextFromResponse, truthy_vobj, h1]
  · intro h1 h2
    simp [extractTextFromResponse, truthy_vobj, h1, h2]
  · intro h1 h2 h3
    constructor
    · intro cs hc
      rw [hc] at h3
      simp [extractTextFromResponse, truthy_vobj, h1, h2, h3, hc]
    · intro hns
      cases hc : jsGet (JSVal.vobj fields) "content"
      case vstr cs => exact absurd hc (hns cs)
      all_goals rw [hc] at h3
      all_goals simp [extractTextFromResponse, truthy_vobj, h1, h2, h3, hc]
  · intro h1 h2 h3 h4
    refine ⟨?_, ?_, ?_⟩
    · intro s2 hmc
      rw [hmc] at h4
      simp [extractTextFromResponse, truthy_vobj, h2, h3, h4, hmc, optGet_vstr,
        truthy_vundefined]
    · intro items hmc
      rw [hmc] at h4
      simp [extractTextFromResponse, truthy_vobj, truthy_varr, h2, h3, h4, hmc,
        optGet_varr, truthy_vundefined]
    · intro hns hna
      cases hmc : optGet (jsGet (JSVal.vobj fields) "message") "content"
      case vstr s2 => exact absurd hmc (hns s2)
      case varr its => exact absurd hmc (hna its)
      all_goals rw [hmc] at h1 h4
      all_goals simp [extractTextFromResponse, truthy_vobj, h1, h2, h3, h4, hmc]
  · intro h1 h2 h3 h4
    simp [extractTextFromResponse, truthy_vobj, h1, h2, h3, h4]

/-- Witness for C6: the first-recognizer branch applied to the concrete
nested `message.content.text` object. -/
theorem c6_object_cascade_witness :
    extractTextFromResponse
        (JSVal.vobj [("message",
          JSVal.vobj [("content", JSVal.vobj [("text", JSVal.vstr "hi")])])]) =
      JSVal.vstr "hi" :=
  ((c6_object_cascade
    [("message", JSVal.vobj [("content", JSVal.vobj [("text", JSVal.vstr "hi")])])]).1
    rfl).trans rfl

/-- Claim C7 counterexample: the string `"[1,2]"` parses as a JSON array
whose elements are numbers — not the "array-of-objects" shape, and not the
single-object-with-`text` shape — yet the normalizer does NOT return it
unchanged: the array branch fires on every parsed array, maps both numbers
to `""`, filters them away and returns the empty string. -/
theorem c7_counterexample_array_of_numbers :
    extractTextFromResponse (JSVal.vstr "[1,2]") = JSVal.vstr "" ∧
    JSVal.vstr "" ≠ JSVal.vstr "[1,2]" := by
  refine ⟨rfl, ?_⟩
  intro h
  injection h with h2
  exact absurd h2 (by decide)

/-- Claim C7 (amended): a string reply that does not parse as JSON is
returned unchanged, and a string reply whose parse result is neither an
array (of any element types) nor an object with a `text` field is returned
unchanged. -/
theorem c7_unmatched_string_unchanged :
    (∀ s, parseJSON s = none → extractTextFromResponse (JSVal.vstr s) = JSVal.vstr s) ∧
    (∀ s v, parseJSON s = some v →
       (∀ items, v ≠ JSVal.varr items) →
       (∀ fields, v = JSVal.vobj fields → hasField fields "text" = false) →
       extractTextFromResponse (JSVal.vstr s) = JSVal.vstr s) := by
  constructor
  · intro s h
    simp [extractTextFromResponse, h]
  · intro s v h hna hnt
    cases v with
    | varr items => exact absurd rfl (hna items)
    | vobj fields =>
      have := hnt fields rfl
      simp [extractTextFromResponse, h, truthy_vobj, this]
    | vstr s2 => simp [extractTextFromResponse, h, truthy]
    | vnum n => simp [extractTextFromResponse, h, truthy]
    | vbool b => simp [extractTextFromResponse, h, truthy]
    | vnull => simp [extractTextFromResponse, h, truthy]
    | vundefined => simp [extractTextFromResponse, h, truthy]

/-- Witness for C7 (amended): the non-JSON string `"hello"` passes through
verbatim. -/
theorem c7_unmatched_string_unchanged_witness :
    extractTextFromResponse (JSVal.vstr "hello") = JSVal.vstr "hello" :=
  c7_unmatched_string_unchanged.1 "hello" rfl

/-- Claim C8 counterexample: normalization is NOT idempotent through the
string re-entry path.  The object `\x7bcontent: \x7btext: "ok"\x7d\x7d`
normalizes to the JSON serialization `"\x7b\"text\":\"ok\"\x7d"`; feeding
that output back in parses it as an object with a `text` field and returns
`"ok"`, a different string. -/
theorem c8_counterexample_not_idempotent :
    extractTextFromResponse (JSVal.vobj [("content", JSVal.vobj [("text", JSVal.vstr "ok")])]) =
      JSVal.vstr "\x7b\"text\":\"ok\"\x7d" ∧
    extractTextFromResponse (JSVal.vstr "\x7b\"text\":\"ok\"\x7d") = JSVal.vstr "ok" ∧
    JSVal.vstr "ok" ≠ JSVal.vstr "\x7b\"text\":\"ok\"\x7d" := by
  refine ⟨rfl, rfl, ?_⟩
  intro h
  injection h with h2
  exact absurd h2 (by decide)

/-- Claim C8 (amended): re-normalizing an output of the normalizer returns
it unchanged whenever that output is not itself parseable JSON (in
particular every plain, non-JSON string passes through verbatim); outputs
that re-parse into a recognized shape — such as a JSON-serialized `content`
object carrying a `text` field — are reduced further. -/
theorem c8_idempotent_on_unparsed_outputs (r : JSVal) (s : String)
    (_hout : extractTextFromResponse r = JSVal.vstr s)
    (hnj : parseJSON s = none) :
    extractTextFromResponse (JSVal.vstr s) = JSVal.vstr s := by
  simp [extractTextFromResponse, hnj]

/-- Witness for C8 (amended): the plain string output `"plain"` (the
normalizer's own output on the input `"plain"`) re-normalizes to itself. -/
theorem c8_idempotent_on_unparsed_outputs_witness :
    extractTextFromResponse (JSVal.vstr "plain") = JSVal.vstr "plain" :=
  c8_idempotent_on_unparsed_outputs (JSVal.vstr "plain") "plain" rfl rfl

/-- The chat behavior used by the adapter demonstrations: resolves with the
raw string reply `"x"`. -/
def demoChat : String → JSVal → Except JSVal JSVal :=
  fun _ _ => Except.ok (JSVal.vstr "x")

/-- A fully capable handle: `ai` present, `chat` a function. -/
def demoPuter : Puter := ⟨some ⟨some demoChat⟩⟩

/-- Claim C9: the adapter's precondition checks run in source order with
distinct outcomes — no handle yields the `NotLoaded` rejection (an
exception to the caller); a handle without the `ai` sub-capability, or
with a non-invokable `chat`, resolves with the corresponding fixed
advisory string instead of raising; and when all checks pass the call is
issued with the `\x7bmodel: modelId\x7d` options object, a resolved reply
is passed through the Response Normalizer before being returned, and a
thrown error is rethrown to the caller. -/
theorem c9_adapter_precondition_order (pr : Option Puter) (promptText model : String) :
    (pr = none → callPuterChat pr promptText model = AdapterResult.notLoadedErr) ∧
    (∀ p, pr = some p → p.ai = none →
       callPuterChat pr promptText model = AdapterResult.aiMissingAdvisory) ∧
    (∀ p a, pr = some p → p.ai = some a → a.chat = none →
       callPuterChat pr promptText model = AdapterResult.chatMissingAdvisory) ∧
    (∀ p a f, pr = some p → p.ai = some a → a.chat = some f →
       (∀ v, f promptText (JSVal.vobj [("model", JSVal.vstr model)]) = Except.ok v →
          callPuterChat pr promptText model =
            AdapterResult.success (extractTextFromResponse v)) ∧
       (∀ e, f promptText (JSVal.vobj [("model", JSVal.vstr model)]) = Except.error e →
          callPuterChat pr promptText model = AdapterResult.rethrown e)) := by
  refine ⟨?_, ?_, ?_, ?_⟩
  · intro h; subst h; rfl
  · intro p hp ha; subst hp; simp [callPuterChat, ha]
  · intro p a hp ha hc; subst hp; simp [callPuterChat, ha, hc]
  · intro p a f hp ha hc
    subst hp
    constructor
    · intro v hv; simp [callPuterChat, ha, hc, hv]
    · intro e he; simp [callPuterChat, ha, hc, he]

/-- Witness for C9: the success branch on a fully capable handle whose chat
resolves with the plain string `"x"`; the normalizer passes it through. -/
theorem c9_adapter_precondition_order_witness :
    callPuterChat (some demoPuter) "q" "m" = AdapterResult.success (JSVal.vstr "x") :=
  (((c9_adapter_precondition_order (some demoPuter) "q" "m").2.2.2
      demoPuter ⟨some demoChat⟩ demoChat rfl rfl rfl).1
    (JSVal.vstr "x") rfl).trans rfl

/-- Claim C2: with a non-empty trimmed prompt and no submission in flight,
whenever gateway availability is not `loaded` the orchestrator never enters
the gateway path and appends exactly the user message followed by the mock
assistant message; and whenever the adapter call rethrows, the same two
messages (user + mock fallback) are appended.  In both cases the sequence
grows by exactly 2. -/
theorem c2_fallback_appends_exactly_two (s : AppState)
    (h1 : jsTrim s.prompt ≠ "") (h2 : s.isLoading = false) :
    (s.scriptStatus ≠ ScriptStatus.loaded →
       (handleSubmit s).invoked = false ∧
       (handleSubmit s).state.messages =
         s.messages ++ [⟨Role.user, JSVal.vstr s.prompt⟩,
                        ⟨Role.assistant, JSVal.vstr (getMockResponse s.prompt)⟩] ∧
       (handleSubmit s).state.messages.length = s.messages.length + 2) ∧
    (∀ e, callPuterChat s.puterRef s.prompt s.selectedModel = AdapterResult.rethrown e →
       (handleSubmit s).state.messages =
         s.messages ++ [⟨Role.user, JSVal.vstr s.prompt⟩,
                        ⟨Role.assistant, JSVal.vstr (getMockResponse s.prompt)⟩] ∧
       (handleSubmit s).state.messages.length = s.messages.length + 2) := by
  have hguard : (jsTrim s.prompt == "" || s.isLoading) = false := by
    rw [h2]
    simpa using h1
  constructor
  · intro h3
    have hg : gatewayGuard s = false := by
      simp only [gatewayGuard]
      have : (s.scriptStatus == ScriptStatus.loaded) = false := by
        simpa using h3
      simp [this]
    refine ⟨?_, ?_, ?_⟩
    · simp [handleSubmit, hguard, hg]
    · simp [handleSubmit, hguard, hg]
    · simp [handleSubmit, hguard, hg]
  · intro e he
    cases hg : gatewayGuard s with
    | false => exact ⟨by simp [handleSubmit, hguard, hg], by simp [handleSubmit, hguard, hg]⟩
    | true => exact ⟨by simp [handleSubmit, hguard, hg, he], by simp [handleSubmit, hguard, hg, he]⟩

/-- The demonstration state for C2: script failed, prompt `"test"`. -/
def c2DemoState : AppState :=
  { initState with prompt := "test", scriptStatus := ScriptStatus.error }

/-- Witness for C2: submitting `"test"` while availability is `failed`
leaves the gateway path untouched and appends user + `mock("test")`. -/
theorem c2_fallback_appends_exactly_two_witness :
    (handleSubmit c2DemoState).invoked = false ∧
    (handleSubmit c2DemoState).state.messages =
      c2DemoState.messages ++ [⟨Role.user, JSVal.vstr c2DemoState.prompt⟩,
        ⟨Role.assistant, JSVal.vstr (getMockResponse c2DemoState.prompt)⟩] ∧
    (handleSubmit c2DemoState).state.messages.length = c2DemoState.messages.length + 2 :=
  (c2_fallback_appends_exactly_two c2DemoState (by decide) rfl).1 (by decide)

/-- Claim C10: whenever the orchestrator actually enters the gateway path,
the capability handle and its `ai` sub-capability are both present (the
guard of line 267 checks exactly that), so the adapter's `NotLoaded`
rejection branch and its missing-`ai` advisory branch are unreachable on
orchestrator-driven executions. -/
theorem c10_adapter_dead_branches_under_guard (s : AppState)
    (h : (handleSubmit s).invoked = true) :
    (∃ p a, s.puterRef = some p ∧ p.ai = some a) ∧
    callPuterChat s.puterRef s.prompt s.selectedModel ≠ AdapterResult.notLoadedErr ∧
    callPuterChat s.puterRef s.prompt s.selectedModel ≠ AdapterResult.aiMissingAdvisory := by
  have hg : gatewayGuard s = true := by
    by_cases hc : (jsTrim s.prompt == "" || s.isLoading) = true
    · exact absurd h (by simp [handleSubmit, hc])
    · have hc' : (jsTrim s.prompt == "" || s.isLoading) = false :=
        Bool.not_eq_true _ ▸ (by simpa using hc)
      by_contra hgf
      have hgf' : gatewayGuard s = false := by simpa using hgf
      exact absurd h (by simp [handleSubmit, hc', hgf'])
  obtain ⟨p, hp, a, ha⟩ : ∃ p, s.puterRef = some p ∧ ∃ a, p.ai = some a := by
    simp only [gatewayGuard, Bool.and_eq_true] at hg
    rcases hpr : s.puterRef with _ | p
    · rw [hpr] at hg; simp at hg
    · rw [hpr] at hg
      simp only [Option.isSome_iff_exists] at hg
      obtain ⟨_, a, ha⟩ := hg
      exact ⟨p, rfl, a, ha⟩
  refine ⟨⟨p, a, hp, ha⟩, ?_, ?_⟩
  · rw [hp]
    simp only [callPuterChat, ha]
    cases hc : a.chat with
    | none => simp
    | some f =>
      cases hf : f s.prompt (JSVal.vobj [("model", JSVal.vstr s.selectedModel)]) with
      | ok v => simp [hf]
      | error e => simp [hf]
  · rw [hp]
    simp only [callPuterChat, ha]
    cases hc : a.chat with
    | none => simp
    | some f =>
      cases hf : f s.prompt (JSVal.vobj [("model", JSVal.vstr s.selectedModel)]) with
      | ok v => simp [hf]
      | error e => simp [hf]

/-- The demonstration state for C10: script loaded, full handle, prompt
`"q"`. -/
def c10DemoState : AppState :=
  { initState with
      prompt := "q",
      scriptStatus := ScriptStatus.loaded,
      puterRef := some demoPuter }

/-- Witness for C10: on the loaded demonstration state the gateway path is
entered and the two dead branches are indeed not taken. -/
theorem c10_adapter_dead_branches_under_guard_witness :
    (∃ p a, c10DemoState.puterRef = some p ∧ p.ai = some a) ∧
    callPuterChat c10DemoState.puterRef c10DemoState.prompt c10DemoState.selectedModel ≠
      AdapterResult.notLoadedErr ∧
    callPuterChat c10DemoState.puterRef c10DemoState.prompt c10DemoState.selectedModel ≠
      AdapterResult.aiMissingAdvisory :=
  c10_adapter_dead_branches_under_guard c10DemoState rfl

theorem handleSubmit_preserves_scriptStatus (s : AppState) :
    (handleSubmit s).state.scriptStatus = s.scriptStatus := by
  unfold handleSubmit
  split <;> rfl

theorem handleSubmit_preserves_timeoutActive (s : AppState) :
    (handleSubmit s).state.timeoutActive = s.timeoutActive := by
  unfold handleSubmit
  split <;> rfl

theorem runApp_append_single (pre : List Event) (e : Event) :
    runApp (pre ++ [e]) = step (runApp pre) e := by
  simp [runApp, List.foldl_append]

/-- Once `scriptStatus` is `loaded`, the loading timeout has already been
cleared (`onload` runs `clearTimeout` before setting the status). -/
theorem loaded_timeout_cleared (es : List Event) (s : AppState)
    (h0 : s.scriptStatus = ScriptStatus.loaded → s.timeoutActive = false) :
    (es.foldl step s).scriptStatus = ScriptStatus.loaded →
      (es.foldl step s).timeoutActive = false := by
  induction es generalizing s with
  | nil => exact h0
  | cons e rest ih =>
    simp only [List.foldl_cons]
    refine ih (step s e) ?_
    cases e with
    | timeout =>
      simp only [step]
      by_cases ht : s.timeoutActive = true
      · simp [ht]
      · have ht' : s.timeoutActive = false := by simpa using ht
        simp [ht']
    | scriptLoad w =>
      cases w with
      | some p => intro _; simp [step]
      | none => intro hl; simp [step] at hl
    | scriptError => intro hl; simp [step] at hl
    | setPrompt str => intro hl; simp [step] at hl ⊢; exact h0 hl
    | setModel m => intro hl; simp [step] at hl ⊢; exact h0 hl
    | submit =>
      intro hl
      simp only [step] at hl ⊢
      rw [handleSubmit_preserves_timeoutActive]
      rw [handleSubmit_preserves_scriptStatus] at hl
      exact h0 hl

/-- The status `scriptStatus` can only become `loaded` through a script-termination
event. -/
theorem loaded_needs_load_event (es : List Event) (s : AppState) :
    (es.foldl step s).scriptStatus = ScriptStatus.loaded →
      s.scriptStatus = ScriptStatus.loaded ∨ 1 ≤ loadEvCount es := by
  induction es generalizing s with
  | nil => exact fun h => Or.inl h
  | cons e rest ih =>
    intro h
    simp only [List.foldl_cons] at h
    rcases ih (step s e) h with h1 | h1
    · cases e with
      | timeout =>
        simp only [step] at h1
        by_cases ht : s.timeoutActive = true
        · simp [ht] at h1
        · have ht' : s.timeoutActive = false := by simpa using ht
          rw [ht'] at h1
          simp at h1
          exact Or.inl h1
      | scriptLoad w => exact Or.inr (by simp [loadEvCount, List.countP_cons])
      | scriptError => exact Or.inr (by simp [loadEvCount, List.countP_cons])
      | setPrompt str => exact Or.inl (by simpa [step] using h1)
      | setModel m => exact Or.inl (by simpa [step] using h1)
      | submit =>
        simp only [step] at h1
        rw [handleSubmit_preserves_scriptStatus] at h1
        exact Or.inl h1
    · right
      calc 1 ≤ loadEvCount rest := h1
        _ ≤ loadEvCount (e :: rest) := by
          simp only [loadEvCount, List.countP_cons]
          omega

/-- Claim C4 counterexample: when the 10-second timeout fires before the
script finishes loading, the availability state becomes `failed`
(`error`); a late `onload` then runs `clearTimeout` (a no-op), sets the
status back to `loaded` and stores the handle — a `failed → ready`
transition, so the state does NOT transition exactly once and DOES revert
from `failed` to `ready`. -/
theorem c4_counterexample_failed_to_ready :
    (runApp [Event.timeout]).scriptStatus = ScriptStatus.error ∧
    (runApp [Event.timeout, Event.scriptLoad (some demoPuter)]).scriptStatus =
      ScriptStatus.loaded :=
  ⟨rfl, rfl⟩

/-- Claim C4 (amended): over every event sequence the browser can deliver
(at most one script-termination event), `ready` is never exited — no
execution moves the state from `ready` to `failed` or back to `pending` —
and the only exit from `failed` is the `failed → ready` move produced by a
script load completing after the timeout already marked failure. -/
theorem c4_ready_absorbing_failed_exits_only_to_ready
    (pre : List Event) (e : Event)
    (hv : loadEvCount (pre ++ [e]) ≤ 1) :
    ((runApp pre).scriptStatus = ScriptStatus.loaded →
       (runApp (pre ++ [e])).scriptStatus = ScriptStatus.loaded) ∧
    ((runApp pre).scriptStatus = ScriptStatus.error →
       (runApp (pre ++ [e])).scriptStatus = ScriptStatus.error ∨
       (runApp (pre ++ [e])).scriptStatus = ScriptStatus.loaded) := by
  rw [runApp_append_single]
  constructor
  · intro h
    have hta : (runApp pre).timeoutActive = false :=
      loaded_timeout_cleared pre initState (by intro hl; simp [initState] at hl) h
    have hcount : 1 ≤ loadEvCount pre := by
      rcases loaded_needs_load_event pre initState h with h1 | h1
      · simp [initState] at h1
      · exact h1
    have he : loadEvCount [e] = 0 := by
      have : loadEvCount pre + loadEvCount [e] ≤ 1 := by
        simpa [loadEvCount, List.countP_append] using hv
      omega
    cases e with
    | timeout => simpa [step, hta] using h
    | scriptLoad w => simp [loadEvCount] at he
    | scriptError => simp [loadEvCount] at he
    | setPrompt str => simpa [step] using h
    | setModel m => simpa [step] using h
    | submit =>
      simp only [step]
      rw [handleSubmit_preserves_scriptStatus]
      exact h
  · intro h
    cases e with
    | timeout =>
      by_cases ht : (runApp pre).timeoutActive = true
      · exact Or.inl (by simp [step, ht])
      · have ht' : (runApp pre).timeoutActive = false := by simpa using ht
        exact Or.inl (by simpa [step, ht'] using h)
    | scriptLoad w =>
      cases w with
      | some p => exact Or.inr (by simp [step])
      | none => exact Or.inl (by simp [step])
    | scriptError => exact Or.inl (by simp [step])
    | setPrompt str => exact Or.inl (by simpa [step] using h)
    | setModel m => exact Or.inl (by simpa [step] using h)
    | submit =>
      refine Or.inl ?_
      simp only [step]
      rw [handleSubmit_preserves_scriptStatus]
      exact h

/-- Witness for C4 (amended): after a successful load, a late timeout event
does not move the state out of `ready`. -/
theorem c4_ready_absorbing_witness :
    (runApp ([Event.scriptLoad (some demoPuter)] ++ [Event.timeout])).scriptStatus =
      ScriptStatus.loaded :=
  (c4_ready_absorbing_failed_exits_only_to_ready
    [Event.scriptLoad (some demoPuter)] Event.timeout (by decide)).1 rfl

/-- A handle whose chat resolves with an empty array reply. -/
def emptyArrayPuter : Puter := ⟨some ⟨some (fun _ _ => Except.ok (JSVal.varr []))⟩⟩

/-- Load succeeds, the user types `"hi"`, submits, and the gateway replies
with the empty array. -/
def c3Events : List Event :=
  [Event.scriptLoad (some emptyArrayPuter), Event.setPrompt "hi", Event.submit]

/-- Claim C3 counterexample: a reachable conversation state containing a
Message with empty content.  When the gateway resolves with `[]`, the
normalizer maps it to the empty string (the spec itself mandates
"empty sequence → empty string"), and the orchestrator wraps that empty
string into the assistant Message unchanged. -/
theorem c3_counterexample_empty_assistant_message :
    ∃ m, m ∈ (runApp c3Events).messages ∧ m.content = JSVal.vstr "" := by
  refine ⟨⟨Role.assistant, JSVal.vstr ""⟩, ?_, rfl⟩
  have h : (runApp c3Events).messages =
      [⟨Role.system, JSVal.vstr welcomeText⟩, ⟨Role.user, JSVal.vstr "hi"⟩,
       ⟨Role.assistant, JSVal.vstr ""⟩] := rfl
  rw [h]
  exact List.Mem.tail _ (List.Mem.tail _ (List.Mem.head _))

theorem user_system_messages_nonempty (es : List Event) (s : AppState)
    (h : ∀ m ∈ s.messages,
      (m.role = Role.user ∨ m.role = Role.system) → m.content ≠ JSVal.vstr "") :
    ∀ m ∈ (es.foldl step s).messages,
      (m.role = Role.user ∨ m.role = Role.system) → m.content ≠ JSVal.vstr "" := by
  induction es generalizing s with
  | nil => exact h
  | cons e rest ih =>
    simp only [List.foldl_cons]
    refine ih (step s e) ?_
    cases e with
    | timeout =>
      by_cases ht : s.timeoutActive = true
      · simpa [step, ht] using h
      · have ht' : s.timeoutActive = false := by simpa using ht
        simpa [step, ht'] using h
    | scriptLoad w =>
      cases w with
      | some p =>
        intro m hm hrole
        simp only [step, List.mem_singleton] at hm
        subst hm
        intro hc
        injection hc with hc2
        exact absurd hc2 (by decide)
      | none => simpa [step] using h
    | scriptError => simpa [step] using h
    | setPrompt str => simpa [step] using h
    | setModel m => simpa [step] using h
    | submit =>
      intro m hm hrole
      simp only [step, handleSubmit] at hm
      by_cases hgd : (jsTrim s.prompt == "" || s.isLoading) = true
      · rw [if_pos hgd] at hm
        exact h m hm hrole
      · rw [if_neg hgd] at hm
        simp only [List.mem_append, List.mem_cons, List.not_mem_nil, or_false] at hm
        rcases hm with hm | hm | hm
        · exact h m hm hrole
        · subst hm
          have hne : jsTrim s.prompt ≠ "" := by
            intro hq
            exact hgd (by simp [hq])
          have hp : s.prompt ≠ "" := by
            intro hq
            exact hne (by rw [hq]; rfl)
          intro hc
          injection hc with hc2
          exact hp hc2
        · subst hm
          rcases hrole with hr | hr <;> simp at hr

/-- Claim C3 (amended): in every reachable conversation state, every user
Message and every system Message has non-empty content (the user message
is guarded by the non-empty-trimmed-prompt check, the system greeting is a
fixed non-empty literal); assistant Messages carry whatever the
normalizer/fallback produced, which can be the empty string (see the
counterexample). -/
theorem c3_user_system_content_nonempty (es : List Event) :
    ∀ m ∈ (runApp es).messages,
      (m.role = Role.user ∨ m.role = Role.system) → m.content ≠ JSVal.vstr "" :=
  user_system_messages_nonempty es initState (by simp [initState])

/-- Witness for C3 (amended): the welcome system message of a successfully
loaded session is non-empty. -/
theorem c3_user_system_content_nonempty_witness :
    (Message.mk Role.system (JSVal.vstr welcomeText)).content ≠ JSVal.vstr "" :=
  c3_user_system_content_nonempty [Event.scriptLoad (some demoPuter)]
    ⟨Role.system, JSVal.vstr welcomeText⟩ (List.Mem.head _) (Or.inr rfl)
